import Mathlib

/-!
Verification development for the comment-categorizer backend.

This file gives a shallow embedding, in Lean, of the job lifecycle engine,
the index update engine and the batch classification engine of the
repository (`src/backend/app/...`), and proves or refutes the specified
properties against that embedding.

Conventions of the embedding:
* Python dict-backed database tables become Lean lists of records;
  SQLAlchemy `scalar_one_or_none` filtered queries become `List.find?`.
* `async` functions are modelled as pure state-transforming functions;
  the sequential scheduling of awaited steps inside one task is kept,
  and a run of concurrent tasks is modelled by an explicit ordering of
  their atomic steps.
* Exceptions become `Except Unit` results; callers that catch them
  pattern-match on the `Except`.
* Small floating point constants used only as progress percentages or
  delays are modelled as naturals.
-/

/-! ## Job records and status updates

Embedding of `app/models/jobs.py` / `app/models/index.py` records and of
`app/crud/jobs.py::update_review_job_status` (lines 92-130) and
`app/crud/index.py::update_job_status` (lines 23-51).
-/

/-- Job status strings used by the backend:
`pending`, `processing`, `completed`, `failed`, `cancelled`. -/
inductive JStatus where
  | pending
  | processing
  | completed
  | failed
  | cancelled
deriving DecidableEq, Repr

/-- A persisted job row (the fields of `ReviewJob` / `IndexJob` that the
status machinery reads or writes: id, owner, status, progress, error,
updated_at).  Timestamps are abstract naturals. -/
structure JobRec where
  id : Nat
  userId : Nat
  status : JStatus
  progress : Nat
  error : Option String
  updatedAt : Nat
deriving DecidableEq, Repr

/-- `get_review_job` / `get_index_job`: select the row with the given id
(`scalar_one_or_none`). -/
def findJob (jobs : List JobRec) (jobId : Nat) : Option JobRec :=
  jobs.find? (fun j => j.id == jobId)

/-- `app/crud/jobs.py::update_review_job_status` (lines 92-130): look the
job up by id; if absent return the table unchanged (the function returns
`None`); otherwise unconditionally overwrite `status` and `updated_at`,
and overwrite `error` only when the optional argument was passed.  The
`progress` parameter is accepted but never assigned to the row - the
function body contains no `job.progress` write - so it is silently
dropped.  There is no guard on the current status. -/
def update_review_job_status (jobs : List JobRec) (jobId : Nat) (status : JStatus)
    (progress : Option Nat) (error : Option String) (now : Nat) : List JobRec :=
  jobs.map (fun j =>
    if j.id == jobId then
      { j with
        status := status
        updatedAt := now
        error := match error with
          | some e => some e
          | none => j.error }
    else j)

/-- `app/crud/index.py::update_job_status` (lines 23-51): same shape as the
review variant; `error` is overwritten only when truthy (a non-empty
string), `progress` when not `None`.  No guard on the current status. -/
def update_job_status (jobs : List JobRec) (jobId : Nat) (status : JStatus)
    (progress : Option Nat) (error : Option String) (now : Nat) : List JobRec :=
  jobs.map (fun j =>
    if j.id == jobId then
      { j with
        status := status
        updatedAt := now
        progress := progress.getD j.progress
        error := match error with
          | some e => if e = "" then j.error else some e
          | none => j.error }
    else j)

/-- A status is terminal when it is `completed`, `failed` or `cancelled`. -/
def JStatus.isTerminal : JStatus → Bool
  | .completed => true
  | .failed => true
  | .cancelled => true
  | _ => false

/-- A status is active when it is `pending` or `processing`
(the `status.in_(["pending", "processing"])` filter). -/
def JStatus.isActive : JStatus → Bool
  | .pending => true
  | .processing => true
  | _ => false

/-! ## The review-job creation guard and the reachable-state system

Embedding of `app/routers/jobs.py::create_review_job_endpoint`
(lines 27-96, in particular the guard at lines 44-49),
`app/crud/jobs.py::get_active_review_job` (lines 61-66) and
`app/crud/jobs.py::create_review_job` (lines 15-40).

States of the system are the rows of the `ReviewJob` table plus the
autoincrement counter; the operations that touch job rows are the guarded
creation attempt and the unguarded status update (the latter is what every
background task and cancellation path calls).
-/

/-- The predicate of `get_active_review_job` (crud/jobs.py lines 61-66):
status in `pending`/`processing` and `user_id == user.id`. -/
def isActiveFor (userId : Nat) (j : JobRec) : Bool :=
  j.status.isActive && j.userId == userId

/-- `get_active_review_job`: first row matching the active-job filter for
this user (`scalar_one_or_none`). -/
def get_active_review_job (jobs : List JobRec) (userId : Nat) : Option JobRec :=
  jobs.find? (isActiveFor userId)

/-- State of the review-job table: rows plus the autoincrement counter. -/
structure JobsState where
  nextId : Nat
  jobs : List JobRec
deriving DecidableEq, Repr

/-- Operations of the job subsystem that modify job rows. -/
inductive JobOp where
  /-- `create_review_job_endpoint`: one creation attempt by `userId`. -/
  | create (userId now : Nat)
  /-- `update_review_job_status`: one unguarded status update, as issued by
  background tasks, cancellation and completion paths. -/
  | setStatus (jobId : Nat) (st : JStatus) (progress : Option Nat)
      (error : Option String) (now : Nat)

/-- One atomic step of the job subsystem.  A creation attempt (routers/jobs.py
lines 44-49 and 73-80) first runs `get_active_review_job`; if an active job
exists for the user it raises HTTP 400 and no row is created; otherwise a
fresh `pending` row is inserted. -/
def jobStep (s : JobsState) : JobOp → JobsState
  | .create userId now =>
    match get_active_review_job s.jobs userId with
    | some _ => s
    | none =>
      { nextId := s.nextId + 1
        jobs := s.jobs ++ [{ id := s.nextId, userId := userId, status := .pending,
                             progress := 0, error := none, updatedAt := now }] }
  | .setStatus jobId st progress error now =>
    { s with jobs := update_review_job_status s.jobs jobId st progress error now }

/-- The empty initial state of the table. -/
def initJobsState : JobsState := { nextId := 0, jobs := [] }

/-- Run a sequence of operations from the initial state. -/
def runJobOps (ops : List JobOp) : JobsState :=
  ops.foldl jobStep initJobsState

/-- A state is reachable when some operation sequence produces it. -/
def ReachableJobs (s : JobsState) : Prop :=
  ∃ ops : List JobOp, runJobOps ops = s

/-- Number of active jobs of one owner (there is a single kind of row in
this table, so owner determines the (owner, kind) pair). -/
def activeCount (s : JobsState) (userId : Nat) : Nat :=
  (s.jobs.filter (isActiveFor userId)).length

/-! ## Startup recovery

Embedding of `app/main.py::lifespan` (lines 35-63).  On startup the code
selects `IndexJob` rows with status `processing` and forces each to
`failed` with the message "Job was interrupted by server restart".  The
`ReviewJob` table is not queried by `lifespan`.
-/

/-- The two persisted job tables. -/
structure DBState where
  indexJobs : List JobRec
  reviewJobs : List JobRec
deriving DecidableEq, Repr

/-- The error message written by the startup recovery. -/
def restartMsg : String := "Job was interrupted by server restart"

/-- `lifespan` startup recovery (main.py lines 45-58): every `IndexJob` in
`processing` is updated to `failed` with `restartMsg` (via
`update_job_status`); no other table is touched. -/
def lifespan_startup (db : DBState) (now : Nat) : DBState :=
  { db with
    indexJobs := db.indexJobs.map (fun j =>
      if j.status = .processing then
        { j with status := .failed, error := some restartMsg, updatedAt := now }
      else j) }

/-! ## The running-jobs registry, cancellation, and the background task

Embedding of `app/common/job_registry.py`'s `running_review_jobs` dict
(a plain in-memory map), `app/utils/routers/jobs.py::cancel_review_job`
(lines 328-377) and `app/utils/routers/jobs.py::process_review_job`
(lines 26-317, success path).
-/

/-- The dict stored per running review job
(utils/routers/jobs.py lines 196-202). -/
structure RunningEntry where
  status : JStatus
  progress : Nat
  cancelRequested : Bool
  totalReviews : Nat
  reviewsProcessed : Nat
deriving DecidableEq, Repr

/-- The in-memory `running_review_jobs` registry, keyed by job id. -/
abbrev Registry := List (Nat × RunningEntry)

/-- Dict key lookup `running_review_jobs.get(job_id)` /
`job_id in running_review_jobs`. -/
def regLookup : Registry → Nat → Option RunningEntry
  | [], _ => none
  | (a, e) :: tl, k => if a = k then some e else regLookup tl k

/-- Dict assignment `running_review_jobs[job_id] = entry`: replace the
entry if the key is present, else append it. -/
def regSet (reg : Registry) (jobId : Nat) (e : RunningEntry) : Registry :=
  if (regLookup reg jobId).isSome then
    reg.map (fun p => if p.1 = jobId then (p.1, e) else p)
  else
    reg ++ [(jobId, e)]

/-- `running_review_jobs.pop(job_id, None)`: drop the entry if present. -/
def regPop (reg : Registry) (jobId : Nat) : Registry :=
  List.filter (fun p => p.1 != jobId) reg

/-- `running_review_jobs[job_id]["cancel_requested"] = True` (and, for the
specification of noninterference, the same write with an arbitrary boolean). -/
def regSetCancel (reg : Registry) (jobId : Nat) (b : Bool) : Registry :=
  reg.map (fun p => if p.1 = jobId then (p.1, { p.2 with cancelRequested := b }) else p)

/-- The cancellation message written by the backend. -/
def cancelMsg : String := "ユーザーによりキャンセルされました"

/-- Result of one `cancel_review_job` call.  `regMid` is the registry as it
stands right after the cancel flag is written (lines 348-353), before the
entry is popped at line 364; `reg` is the registry when the call returns. -/
structure CancelOut where
  ok : Bool
  db : List JobRec
  regMid : Registry
  reg : Registry
deriving DecidableEq, Repr

/-- `app/utils/routers/jobs.py::cancel_review_job` (lines 328-377): look the
job up; refuse when missing or not in `pending`/`processing`.  If a
running-registry entry exists, set its `cancel_requested` flag, mark the
row `cancelled`, and pop the entry; otherwise (a still-pending job with no
handle) mark the row `cancelled` directly. -/
def cancel_review_job (db : List JobRec) (reg : Registry) (jobId : Nat) (now : Nat) :
    CancelOut :=
  match findJob db jobId with
  | none => { ok := false, db := db, regMid := reg, reg := reg }
  | some j =>
    if j.status.isActive then
      if (regLookup reg jobId).isSome then
        let regMid := regSetCancel reg jobId true
        let db1 := update_review_job_status db jobId .cancelled none (some cancelMsg) now
        { ok := true, db := db1, regMid := regMid, reg := regPop regMid jobId }
      else
        { ok := true,
          db := update_review_job_status db jobId .cancelled none (some cancelMsg) now,
          regMid := reg, reg := reg }
    else
      { ok := false, db := db, regMid := reg, reg := reg }

/-- Observable outcome of one run of the `process_review_job` background
task.  `pipelineOut` carries the classification output the task produced
(`classify_and_merge`'s effect); `classified` records that the
classification stage was executed; `statusTrace` lists the statuses the
task wrote to the job row, in program order. -/
structure TaskOut (α : Type) where
  db : List JobRec
  reg : Registry
  classified : Bool
  pipelineOut : Option α
  statusTrace : List JStatus
deriving Repr

/-- `app/utils/routers/jobs.py::process_review_job` (lines 26-317), success
path.  The task begins by unconditionally setting the row to `processing`
(lines 45-47) - it never reads the row's current status and never reads the
registry's `cancel_requested` flag.  It then loads its inputs, issues
status updates passing progress 10 and 25 (which
`update_review_job_status` drops), installs its registry entry with
`cancel_requested := false` (lines 196-202, overwriting any existing
entry), issues another update passing progress 30, runs
`classify_and_merge` (lines 216-225, whose arguments are the loaded
inputs only - the registry is not among them), issues an update passing
progress 80, marks the row `completed` passing progress 100, and
finally pops its registry entry (lines 314-317).

`pipeline` stands for the value produced by `classify_and_merge`; it is a
parameter of the model because it is a function of the loaded inputs only. -/
def process_review_job (jobId : Nat) (totalReviews : Nat) (pipeline : α)
    (db0 : List JobRec) (reg0 : Registry) (now : Nat) : TaskOut α :=
  let db1 := update_review_job_status db0 jobId .processing none none now
  let db2 := update_review_job_status db1 jobId .processing (some 10) none now
  let db3 := update_review_job_status db2 jobId .processing (some 25) none now
  let reg1 := regSet reg0 jobId
    { status := .processing, progress := 30, cancelRequested := false,
      totalReviews := totalReviews, reviewsProcessed := 0 }
  let db4 := update_review_job_status db3 jobId .processing (some 30) none now
  let out := pipeline
  let db5 := update_review_job_status db4 jobId .processing (some 80) none now
  let db6 := update_review_job_status db5 jobId .completed (some 100) none now
  { db := db6
    reg := regPop reg1 jobId
    classified := true
    pipelineOut := some out
    statusTrace := [.processing, .processing, .processing, .processing,
                    .processing, .completed] }

/-! ## The batch classification engine

Embedding of `app/rag_pipeline/process_reviews.py`:
`process_single_batch` (lines 33-86), `process_batch_wrapper`
(lines 89-141) and `process_reviews_in_batches_async` (lines 159-231).

The FAISS retrieval call and the categorizer call are the two effectful
collaborators of `process_single_batch`; a run is parameterised by a
`behavior` function giving, for a batch and the number of attempts already
used on it, the outcome of those two calls (`Except.error` modelling a
raised exception).  Awaited tasks of `tqdm.gather` are modelled in task
order, which is the order `gather` returns results in; the retry queue
receives failed batches in that same order.
-/

/-- A review item: `{"id": ..., "text": ...}`. -/
structure Review where
  id : Option Nat
  text : String
deriving DecidableEq, Repr

/-- Python truthiness test `review["text"] and review["text"].strip()`:
the text contains at least one non-whitespace character. -/
def pyNonBlank (s : String) : Bool :=
  s.data.any (fun c => !c.isWhitespace)

/-- One entry of the categorizer's `"results"` list:
`{"review": <number>, "categories": [...]}`. -/
structure ClassEntry where
  review : Nat
  categories : List String
deriving DecidableEq, Repr

/-- One entry of a batch's result list.  For empty-text items the code
stores `""` in `"similar_reviews"`; the embedding renders that as `[]`. -/
structure ResultItem where
  id : Option Nat
  new_review : String
  similar_reviews : List String
  categories : List String
deriving DecidableEq, Repr

/-- The default per-item result used both for empty-text items
(process_reviews.py lines 45-50) and for items of a batch whose attempts
are exhausted (lines 127-135): same id and text, no similar reviews,
categories `["N/A"]`. -/
def naItem (r : Review) : ResultItem :=
  { id := r.id, new_review := r.text, similar_reviews := [], categories := ["N/A"] }

/-- The default classification payload
`[{"review": i+1, "categories": ["N/A"]} for i in range(n)]`, built both in
process_reviews.py lines 69-74 and in openai_llm.py `_default_response`
(lines 177-183). -/
def defaultEntries (n : Nat) : List ClassEntry :=
  (List.range n).map (fun i => { review := i + 1, categories := ["N/A"] })

/-- Outcome of the two effectful calls of one attempt at one batch:
the FAISS `batch_retrieve_similar_reviews` call and the
`llm.classify_reviews_batch` call.  `Except.error` models an exception
raised by the call. -/
structure Attempt where
  retr : Except Unit (List (List String))
  cls : Except Unit (List ClassEntry)

/-- Positions of the non-empty items of a batch, in order
(the `j` components of `non_empty_items`, process_reviews.py lines 41-43). -/
def nonEmptyIdx (batch : List Review) : List Nat :=
  ((batch.enum).filter (fun p => pyNonBlank p.2.text)).map Prod.fst

/-- `process_single_batch` (process_reviews.py lines 33-86).  Start from a
slot list with empty-text items resolved to `naItem` and other slots
`None`; when non-empty items exist, run retrieval (whose exception
propagates), substitute the inline `["N/A"]` default when the categorizer
raises (lines 67-74), and write one result per element of
`zip(indices, similar_reviews_list, classification_result["results"])`
into the slot at its original batch position (lines 76-84; `zip` truncates
at the shortest list, so slots beyond the categorizer's list stay `None`). -/
def process_single_batch (batch : List Review) (att : Attempt) :
    Except Unit (List (Option ResultItem)) :=
  let init : List (Option ResultItem) :=
    batch.map (fun r => if pyNonBlank r.text then none else some (naItem r))
  let indices := nonEmptyIdx batch
  if indices.isEmpty then .ok init
  else
    match att.retr with
    | .error e => .error e
    | .ok sims =>
      let clsResults := match att.cls with
        | .error _ => defaultEntries indices.length
        | .ok rs => rs
      .ok ((indices.zip (sims.zip clsResults)).foldl
        (fun acc t =>
          acc.set t.1 (some
            { id := (batch.getD t.1 { id := none, text := "" }).id,
              new_review := (batch.getD t.1 { id := none, text := "" }).text,
              similar_reviews := t.2.1,
              categories := t.2.2.categories }))
        init)

/-- `StatusTracker` (process_reviews.py lines 25-30). -/
structure StatusTracker where
  num_batches_started : Nat := 0
  num_batches_in_progress : Nat := 0
  num_batches_succeeded : Nat := 0
  num_batches_failed : Nat := 0
deriving DecidableEq, Repr

/-- The `asyncio.Queue` of `(batch, attempts_left)` pairs, FIFO. -/
abbrev RetryQueue := List (List Review × Nat)

/-- Observable outcome of one `process_batch_wrapper` call: the returned
value (`None` when the batch was re-queued), the tracker and queue after
the call, and the `asyncio.sleep` backoff performed, if any. -/
structure WrapOut where
  result : Option (List (Option ResultItem))
  tracker : StatusTracker
  queue : RetryQueue
  slept : Option Nat
deriving DecidableEq, Repr

/-- `process_batch_wrapper` (process_reviews.py lines 89-141).  Counts the
batch as started/in-progress; on a `process_single_batch` exception with
attempts remaining it sleeps `2 ** (max_attempts - attempts_left)` seconds,
re-queues `(batch, attempts_left - 1)` and returns `None`; with no attempts
remaining it returns the `["N/A"]` default for every item; on success it
returns the batch results.  The `finally` block decrements the in-progress
counter on every path. -/
def process_batch_wrapper (behavior : List Review → Nat → Attempt)
    (batch : List Review) (max_attempts attempts_left : Nat)
    (tracker : StatusTracker) (queue : RetryQueue) : WrapOut :=
  let t1 := { tracker with
    num_batches_started := tracker.num_batches_started + 1
    num_batches_in_progress := tracker.num_batches_in_progress + 1 }
  match process_single_batch batch (behavior batch (max_attempts - attempts_left)) with
  | .ok r =>
    { result := some r
      tracker := { t1 with
        num_batches_succeeded := t1.num_batches_succeeded + 1
        num_batches_in_progress := t1.num_batches_in_progress - 1 }
      queue := queue
      slept := none }
  | .error _ =>
    if 0 < attempts_left then
      { result := none
        tracker := { t1 with
          num_batches_failed := t1.num_batches_failed + 1
          num_batches_in_progress := t1.num_batches_in_progress - 1 }
        queue := queue ++ [(batch, attempts_left - 1)]
        slept := some (2 ^ (max_attempts - attempts_left)) }
    else
      { result := some (batch.map (fun r => some (naItem r)))
        tracker := { t1 with
          num_batches_failed := t1.num_batches_failed + 1
          num_batches_in_progress := t1.num_batches_in_progress - 1 }
        queue := queue
        slept := none }

/-- Helper for `chunkList`: the slicing loop, with the list length as
explicit fuel so that the recursion is structural. -/
def chunkGo (B : Nat) : Nat → List α → List (List α)
  | _, [] => []
  | 0, _ :: _ => []
  | fuel + 1, x :: xs => ((x :: xs).take B) :: chunkGo B fuel ((x :: xs).drop B)

/-- The batch partition
`[new_reviews[i : i + reviews_per_batch] for i in range(0, len(new_reviews), reviews_per_batch)]`
(process_reviews.py lines 170-173).  A zero batch size raises `ValueError`
in `range`; the model returns `[]` and every theorem assumes `0 < B`. -/
def chunkList (B : Nat) (l : List α) : List (List α) :=
  if B = 0 then [] else chunkGo B l.length l

lemma chunkGo_fuel_irrel {α : Type} (B : Nat) (hB : 0 < B) :
    ∀ (fuel fuel' : Nat) (l : List α), l.length ≤ fuel → l.length ≤ fuel' →
      chunkGo B fuel l = chunkGo B fuel' l := by
  intro fuel
  induction fuel with
  | zero =>
    intro fuel' l h h'
    cases l with
    | nil => cases fuel' <;> rfl
    | cons x xs => simp at h
  | succ f ih =>
    intro fuel' l h h'
    cases l with
    | nil => cases fuel' <;> rfl
    | cons x xs =>
      cases fuel' with
      | zero => simp at h'
      | succ f' =>
        simp only [chunkGo]
        congr 1
        apply ih
        all_goals
          simp only [List.length_drop, List.length_cons] at *
          omega

/-- `chunkList` on the empty list. -/
lemma chunkList_nil {α : Type} (B : Nat) : chunkList B ([] : List α) = [] := by
  cases B <;> rfl

/-- One step of the slicing loop: the first slice of `B` elements followed
by the partition of the rest. -/
lemma chunkList_cons {α : Type} (B : Nat) (hB : 0 < B) (x : α) (xs : List α) :
    chunkList B (x :: xs) = ((x :: xs).take B) :: chunkList B ((x :: xs).drop B) := by
  have hB' : B ≠ 0 := Nat.pos_iff_ne_zero.mp hB
  simp only [chunkList, if_neg hB', List.length_cons, chunkGo]
  congr 1
  apply chunkGo_fuel_irrel B hB
  · simp only [List.length_drop, List.length_cons]
    omega
  · exact le_rfl

/-- Result of the `tqdm.gather` phase: per-batch returned values in task
order, plus the tracker and retry queue after all first attempts. -/
structure GatherOut where
  results : List (Option (List (Option ResultItem)))
  tracker : StatusTracker
  queue : RetryQueue
deriving Repr

/-- The `tqdm.gather(*tasks)` phase (process_reviews.py lines 179-193):
one `process_batch_wrapper` call per batch with `attempts_left =
max_attempts`; `gather` returns the values in task order. -/
def gatherPhase (behavior : List Review → Nat → Attempt) (max_attempts : Nat) :
    List (List Review) → StatusTracker → RetryQueue → GatherOut
  | [], t, q => { results := [], tracker := t, queue := q }
  | b :: rest, t, q =>
    let out := process_batch_wrapper behavior b max_attempts max_attempts t q
    let g := gatherPhase behavior max_attempts rest out.tracker out.queue
    { results := out.result :: g.results, tracker := g.tracker, queue := g.queue }

/-- Termination measure of the retry loop: each queue entry can cause at
most `attempts_left + 1` further wrapper calls. -/
def queueMeasure (q : RetryQueue) : Nat :=
  (q.map (fun p => p.2 + 1)).sum

lemma queueMeasure_append (q : RetryQueue) (b : List Review) (n : Nat) :
    queueMeasure (q ++ [(b, n)]) = queueMeasure q + (n + 1) := by
  simp [queueMeasure]

/-- The queue after a wrapper call is either unchanged or has the same
batch re-queued with one fewer remaining attempt. -/
lemma wrapper_queue_cases (behavior : List Review → Nat → Attempt)
    (b : List Review) (maxA al : Nat) (t : StatusTracker) (q : RetryQueue) :
    (process_batch_wrapper behavior b maxA al t q).queue = q ∨
      (0 < al ∧
        (process_batch_wrapper behavior b maxA al t q).queue = q ++ [(b, al - 1)]) := by
  unfold process_batch_wrapper
  cases process_single_batch b (behavior b (maxA - al)) with
  | error e =>
    by_cases h : 0 < al
    · right; simp [h]
    · left; simp [h]
  | ok r => left; simp

/-- Values appended by the retry-drain loop, with the final tracker. -/
structure DrainOut where
  appended : List (List (Option ResultItem))
  tracker : StatusTracker
deriving Repr

/-- Helper for `drainQueue`: the retry loop with `queueMeasure` as explicit
fuel so that the recursion is structural.  The fuel-exhausted case is
unreachable whenever the fuel is at least the measure of the queue. -/
def drainGo (behavior : List Review → Nat → Attempt) (max_attempts : Nat) :
    Nat → RetryQueue → StatusTracker → DrainOut
  | _, [], t => { appended := [], tracker := t }
  | 0, _ :: _, t => { appended := [], tracker := t }
  | fuel + 1, (b, al) :: rest, t =>
    let out := process_batch_wrapper behavior b max_attempts al t rest
    match out.result with
    | some r =>
      let d := drainGo behavior max_attempts fuel out.queue out.tracker
      { appended := r :: d.appended, tracker := d.tracker }
    | none => drainGo behavior max_attempts fuel out.queue out.tracker

/-- The retry loop `while not retry_queue.empty()` (process_reviews.py
lines 195-209): pop the front `(batch, attempts_left)` pair, run the
wrapper (which may re-queue at the back), and append its value to
`batch_results` when it is not `None`. -/
def drainQueue (behavior : List Review → Nat → Attempt) (max_attempts : Nat)
    (q : RetryQueue) (t : StatusTracker) : DrainOut :=
  drainGo behavior max_attempts (queueMeasure q) q t

lemma queueMeasure_cons (b : List Review) (al : Nat) (rest : RetryQueue) :
    queueMeasure ((b, al) :: rest) = (al + queueMeasure rest) + 1 := by
  simp [queueMeasure]
  omega

/-- After popping `(b, al)`, the measure of the queue the wrapper returns
is at most `al + queueMeasure rest`. -/
lemma wrapper_queue_measure (behavior : List Review → Nat → Attempt)
    (b : List Review) (maxA al : Nat) (t : StatusTracker) (rest : RetryQueue) :
    queueMeasure (process_batch_wrapper behavior b maxA al t rest).queue ≤
      al + queueMeasure rest := by
  rcases wrapper_queue_cases behavior b maxA al t rest with h | ⟨hal, h⟩ <;>
    simp only [h, queueMeasure, List.map_append, List.sum_append, List.map_cons,
      List.sum_cons, List.map_nil, List.sum_nil] <;>
    omega

lemma drainGo_fuel_irrel (behavior : List Review → Nat → Attempt) (maxA : Nat) :
    ∀ (fuel fuel' : Nat) (q : RetryQueue) (t : StatusTracker),
      queueMeasure q ≤ fuel → queueMeasure q ≤ fuel' →
      drainGo behavior maxA fuel q t = drainGo behavior maxA fuel' q t := by
  intro fuel
  induction fuel with
  | zero =>
    intro fuel' q t h h'
    cases q with
    | nil => cases fuel' <;> rfl
    | cons p rest =>
      exfalso
      rw [show p = (p.1, p.2) from rfl, queueMeasure_cons] at h
      omega
  | succ f ih =>
    intro fuel' q t h h'
    cases q with
    | nil => cases fuel' <;> rfl
    | cons p rest =>
      cases fuel' with
      | zero =>
        exfalso
        rw [show p = (p.1, p.2) from rfl, queueMeasure_cons] at h'
        omega
      | succ f' =>
        obtain ⟨b, al⟩ := p
        rw [queueMeasure_cons] at h h'
        have hm := wrapper_queue_measure behavior b maxA al t rest
        simp only [drainGo]
        have hrec := ih f' (process_batch_wrapper behavior b maxA al t rest).queue
          (process_batch_wrapper behavior b maxA al t rest).tracker
          (by omega) (by omega)
        cases hres : (process_batch_wrapper behavior b maxA al t rest).result <;>
          simp only [hres, hrec]

/-- `drainQueue` on the empty queue. -/
lemma drainQueue_nil (behavior : List Review → Nat → Attempt) (maxA : Nat)
    (t : StatusTracker) :
    drainQueue behavior maxA [] t = { appended := [], tracker := t } := rfl

/-- One iteration of the retry loop, in the shape of the source. -/
lemma drainQueue_cons (behavior : List Review → Nat → Attempt) (maxA : Nat)
    (b : List Review) (al : Nat) (rest : RetryQueue) (t : StatusTracker) :
    drainQueue behavior maxA ((b, al) :: rest) t =
      (let out := process_batch_wrapper behavior b maxA al t rest
       match out.result with
       | some r =>
         let d := drainQueue behavior maxA out.queue out.tracker
         { appended := r :: d.appended, tracker := d.tracker }
       | none => drainQueue behavior maxA out.queue out.tracker) := by
  have hm := wrapper_queue_measure behavior b maxA al t rest
  simp only [drainQueue, queueMeasure_cons, drainGo]
  have hrec := drainGo_fuel_irrel behavior maxA (al + queueMeasure rest)
    (queueMeasure (process_batch_wrapper behavior b maxA al t rest).queue)
    (process_batch_wrapper behavior b maxA al t rest).queue
    (process_batch_wrapper behavior b maxA al t rest).tracker
    hm le_rfl
  cases hres : (process_batch_wrapper behavior b maxA al t rest).result <;>
    simp only [hres, hrec]

/-- Final outcome of a classification run. -/
structure ProcessOut where
  results : List (Option ResultItem)
  tracker : StatusTracker
deriving Repr

/-- `process_reviews_in_batches_async` (process_reviews.py lines 159-231):
partition into batches, gather the first attempts in task order, drain the
retry queue appending late results at the end of `batch_results`
(line 209), and flatten the non-`None` batch lists in order
(lines 211-214). -/
def process_reviews_in_batches_async (new_reviews : List Review)
    (behavior : List Review → Nat → Attempt)
    (reviews_per_batch : Nat := 20) (max_attempts : Nat := 3) : ProcessOut :=
  let batches := chunkList reviews_per_batch new_reviews
  let g := gatherPhase behavior max_attempts batches {} []
  let d := drainQueue behavior max_attempts g.queue g.tracker
  let batch_results := g.results ++ d.appended.map some
  { results := (batch_results.filterMap id).flatten, tracker := d.tracker }

/-! ## The rate-limit-aware call wrapper and `classify_reviews_batch`

Embedding of `app/rag_pipeline/openai_llm.py`:
`classify_reviews_batch` (lines 34-102), `_call_api_with_retry`
(lines 143-175) and `_default_response` (lines 177-183).
-/

/-- The response metadata `_call_api_with_retry` reads after a call
returns: the `openai-processing-ms` header, the
`x-ratelimit-reset-tokens` header already converted to seconds by
`time_to_seconds`, and the integer `x-ratelimit-remaining-tokens` header. -/
structure ApiHeaders where
  processingMs : Nat
  resetTokensSeconds : Nat
  remainingTokens : Nat
deriving DecidableEq, Repr

/-- The `response.usage` token counts. -/
structure ApiUsage where
  promptTokens : Nat
  completionTokens : Nat
  totalTokens : Nat
deriving DecidableEq, Repr

/-- The accumulating counters of an `OpenAILLM` instance
(openai_llm.py lines 28-32). -/
structure LLMStats where
  api_call_durations : List Nat := []
  total_prompt_tokens : Nat := 0
  total_completion_tokens : Nat := 0
  total_tokens : Nat := 0
  api_calls : Nat := 0
deriving DecidableEq, Repr

/-- What `_call_api_with_retry` does after the API call returns
(openai_llm.py lines 156-175): append the processing duration, add the
usage tokens to the three totals, bump the call counter, then sleep for
the reset duration exactly when the remaining-token quota is below 4000.
The second component is the `asyncio.sleep` performed, if any. -/
def _call_api_with_retry_post (st : LLMStats) (h : ApiHeaders) (u : ApiUsage) :
    LLMStats × Option Nat :=
  ({ api_call_durations := st.api_call_durations ++ [h.processingMs]
     total_prompt_tokens := st.total_prompt_tokens + u.promptTokens
     total_completion_tokens := st.total_completion_tokens + u.completionTokens
     total_tokens := st.total_tokens + u.totalTokens
     api_calls := st.api_calls + 1 },
   if h.remainingTokens < 4000 then some h.resetTokensSeconds else none)

/-- The categorizer's parsed payload: a JSON object with a `"results"`
list. -/
structure ClassificationResult where
  results : List ClassEntry
deriving DecidableEq, Repr

/-- `_default_response(num_reviews)` (openai_llm.py lines 177-183). -/
def _default_response (num_reviews : Nat) : ClassificationResult :=
  { results := defaultEntries num_reviews }

/-- Outcome of `_call_api_with_retry` as observed by
`classify_reviews_batch`: either the call still raised after the retry
decorator's attempts, or it returned a body which `json.loads` either
fails on (`none`) or parses into a `ClassificationResult`. -/
abbrev ApiOutcome := Except Unit (Option ClassificationResult)

/-- `classify_reviews_batch` (openai_llm.py lines 91-102): call the API
through the retry wrapper; if the call raises even after retries, or the
response body fails JSON decoding, return `_default_response(len(reviews))`;
otherwise return the parsed object.  No exception escapes. -/
def classify_reviews_batch (reviews : List String) (api : ApiOutcome) :
    ClassificationResult :=
  match api with
  | .error _ => _default_response reviews.length
  | .ok none => _default_response reviews.length
  | .ok (some r) => r

/-! ## The replace-mode index operation on disk

Embedding of the replace branch of
`app/utils/common/test.py::process_index_job` (lines 95-204) together
with `app/rag_pipeline/indexer.py::generate_index` (lines 242-270) and
`_generate_index_sync` (lines 272-328).

The disk is modelled by the contents at the four paths the operation
touches: the final index/cache pair and the scratch pair inside the
job's temporary directory.  File contents are abstract naturals; `none`
means the path does not exist.  `FsOp.snapshot` is the snapshot operation
of `FaissRetriever._create_snapshot` (indexer.py lines 130-157); it is in
the vocabulary because `update_index` (the add-mode path, indexer.py line
339) performs it, and the point of interest is whether the replace path
ever does.
-/

/-- Contents of the four paths the replace operation touches. -/
structure Disk where
  finalIndex : Option Nat
  finalCache : Option Nat
  tempIndex : Option Nat
  tempCache : Option Nat
  /-- Whether a snapshot copy of the final pair exists in a snapshot
  temp directory. -/
  snapshotPair : Option (Nat × Nat)
deriving DecidableEq, Repr

/-- The effectful steps the replace branch performs, in order.  `newIdx`
and `newCache` are the bytes of the freshly built index and cache. -/
inductive FsOp where
  /-- `retriever.generate_index()` run against the overridden temp paths
  (test.py line 135): on success the scratch pair holds the new bytes;
  the final pair is not touched. -/
  | buildScratch (newIdx newCache : Nat)
  /-- `db.commit()` of the updated record (test.py line 165). -/
  | dbCommit
  /-- `os.remove(original_index_path)` (test.py line 172). -/
  | removeFinalIndex
  /-- `os.remove(original_cache_path)` (test.py line 177). -/
  | removeFinalCache
  /-- `shutil.copy2(temp_index_path, original_index_path)` (test.py line 193). -/
  | copyIndexToFinal
  /-- `shutil.copy2(temp_cache_path, original_cache_path)` (test.py line 198). -/
  | copyCacheToFinal
  /-- `FaissRetriever._create_snapshot` (indexer.py lines 130-157): copy
  the current final pair into a snapshot directory. -/
  | snapshot
deriving DecidableEq, Repr

/-- Effect of one completed step on the disk. -/
def applyFsOp (d : Disk) : FsOp → Disk
  | .buildScratch newIdx newCache => { d with tempIndex := some newIdx, tempCache := some newCache }
  | .dbCommit => d
  | .removeFinalIndex => { d with finalIndex := none }
  | .removeFinalCache => { d with finalCache := none }
  | .copyIndexToFinal => { d with finalIndex := d.tempIndex }
  | .copyCacheToFinal => { d with finalCache := d.tempCache }
  | .snapshot =>
    match d.finalIndex, d.finalCache with
    | some a, some b => { d with snapshotPair := some (a, b) }
    | _, _ => d

/-- The steps of the replace branch of `process_index_job` when a prior
index exists (test.py lines 95-204), in program order.  The branch takes
no snapshot: `_create_snapshot` is called only from `update_index`
(indexer.py line 339), which the replace branch never invokes. -/
def replaceSteps (newIdx newCache : Nat) : List FsOp :=
  [.buildScratch newIdx newCache, .dbCommit, .removeFinalIndex, .removeFinalCache,
   .copyIndexToFinal, .copyCacheToFinal]

/-- The `finally` block of `process_index_job` (test.py lines 266-277):
`shutil.rmtree(temp_dir)` removes the scratch pair whatever happened. -/
def cleanupTemp (d : Disk) : Disk :=
  { d with tempIndex := none, tempCache := none }

/-- Run the replace branch, with execution stopping after `k` completed
steps (`k ≥ 6` is a run with no failure; a failure or cancellation at the
`(k+1)`-st step is modelled conservatively as that step having no effect).
The guaranteed-execution cleanup runs in every case. -/
def runReplace (d : Disk) (newIdx newCache : Nat) (k : Nat) : Disk :=
  cleanupTemp (((replaceSteps newIdx newCache).take k).foldl applyFsOp d)

/-- The on-disk final pair, for the byte-identical comparison. -/
def finalPair (d : Disk) : Option Nat × Option Nat :=
  (d.finalIndex, d.finalCache)

/-! ## Helper lemmas -/

/-- Selecting by id after an id-keyed map update selects the updated row. -/
lemma find?_map_keyed (l : List JobRec) (jobId : Nat) (f : JobRec → JobRec)
    (hid : ∀ j, (f j).id = j.id) :
    (l.map (fun j => if j.id == jobId then f j else j)).find? (fun j => j.id == jobId) =
      (l.find? (fun j => j.id == jobId)).map f := by
  induction l with
  | nil => rfl
  | cons a tl ih =>
    by_cases h : (a.id == jobId) = true
    · have hfa : ((f a).id == jobId) = true := by
        rw [hid a]; exact h
      rw [List.map_cons, if_pos h,
        List.find?_cons_of_pos (p := fun (j : JobRec) => j.id == jobId) _ hfa,
        List.find?_cons_of_pos (p := fun (j : JobRec) => j.id == jobId) _ h]
      rfl
    · rw [List.map_cons, if_neg h,
        List.find?_cons_of_neg (p := fun (j : JobRec) => j.id == jobId) _ h,
        List.find?_cons_of_neg (p := fun (j : JobRec) => j.id == jobId) _ h, ih]

/-- `update_review_job_status` on the selected row: status, `updated_at`
and (when passed) error are overwritten; progress is untouched. -/
lemma findJob_update_review_job_status (jobs : List JobRec) (jobId : Nat)
    (st : JStatus) (prog : Option Nat) (err : Option String) (now : Nat) :
    findJob (update_review_job_status jobs jobId st prog err now) jobId =
      (findJob jobs jobId).map (fun j =>
        { j with
          status := st
          updatedAt := now
          error := (match err with | some e => some e | none => j.error) }) := by
  simp only [findJob, update_review_job_status]
  exact find?_map_keyed jobs jobId _ (fun j => rfl)

/-- `update_job_status` on the selected row. -/
lemma findJob_update_job_status (jobs : List JobRec) (jobId : Nat)
    (st : JStatus) (prog : Option Nat) (err : Option String) (now : Nat) :
    findJob (update_job_status jobs jobId st prog err now) jobId =
      (findJob jobs jobId).map (fun j =>
        { j with
          status := st
          updatedAt := now
          progress := prog.getD j.progress
          error := (match err with
            | some e => if e = "" then j.error else some e
            | none => j.error) }) := by
  simp only [findJob, update_job_status]
  exact find?_map_keyed jobs jobId _ (fun j => rfl)

/-! ## Claim C6: status transitions on terminal jobs -/

/-- A job row already in the terminal state `completed`, for the C6
scenarios. -/
def jrCompleted : JobRec :=
  { id := 0, userId := 7, status := .completed, progress := 100, error := none, updatedAt := 5 }

/-- Claim C6, counterexample.  The claim says a second status-transition
attempt to a terminal state on a job already in a terminal state is a
no-op leaving the record unchanged.  A job already `completed`, updated to
the terminal state `failed` by `update_review_job_status`, has its record
changed (its status becomes `failed`); `update_job_status` behaves the
same way.  So the transition functions are not no-ops on terminal jobs. -/
theorem C6_counterexample :
    update_review_job_status [jrCompleted] 0 .failed none none 6 ≠ [jrCompleted] ∧
    update_job_status [jrCompleted] 0 .failed none none 6 ≠ [jrCompleted] := by
  constructor <;> decide

/-- Claim C6 (amended): a second status-transition attempt on a job in a
terminal state does not raise an error (both update functions are total
and commit normally), but it is not a no-op: `update_job_status` and
`update_review_job_status` have no terminal-state guard, so the record's
status and `updated_at` are unconditionally overwritten (as are, when
passed, error for both variants and progress for the index variant;
the review variant accepts a progress argument and drops it). -/
theorem C6_terminal_transition_overwrites (jobs : List JobRec) (jobId : Nat)
    (st : JStatus) (prog : Option Nat) (err : Option String) (now : Nat)
    (j : JobRec) (hfind : findJob jobs jobId = some j)
    (hterm : j.status.isTerminal = true) (hterm' : st.isTerminal = true) :
    findJob (update_review_job_status jobs jobId st prog err now) jobId =
      some { j with
             status := st
             updatedAt := now
             error := (match err with | some e => some e | none => j.error) } ∧
    findJob (update_job_status jobs jobId st prog err now) jobId =
      some { j with
             status := st
             updatedAt := now
             progress := prog.getD j.progress
             error := (match err with
               | some e => if e = "" then j.error else some e
               | none => j.error) } := by
  constructor
  · rw [findJob_update_review_job_status, hfind]; rfl
  · rw [findJob_update_job_status, hfind]; rfl

/-- Claim C6, witness: the amended theorem applied to a concrete
`completed` job transitioned a second time, to `failed`. -/
theorem C6_terminal_transition_overwrites_witness :
    findJob (update_review_job_status [jrCompleted] 0 .failed none none 6) 0 =
      some { jrCompleted with status := .failed, updatedAt := 6 } := by
  have h := C6_terminal_transition_overwrites [jrCompleted] 0 .failed none none 6
    jrCompleted (by decide) (by decide) (by decide)
  exact h.1

/-! ## Claim C5: startup recovery -/

/-- An index-build job persisted as `processing`, for the C5 scenarios. -/
def jrIdxProc : JobRec :=
  { id := 2, userId := 1, status := .processing, progress := 0, error := none, updatedAt := 0 }

/-- A classification job persisted as `processing`, for the C5 scenarios. -/
def jrRevProc : JobRec :=
  { id := 3, userId := 1, status := .processing, progress := 0, error := none, updatedAt := 0 }

/-- Claim C5, counterexample.  The claim says every job of either kind
found in `processing` at startup is forced to `failed`, and no job remains
in `processing` afterwards.  `lifespan` only queries the `IndexJob` table:
a classification (`ReviewJob`) row persisted as `processing` is still
`processing`, unchanged, after startup recovery completes. -/
theorem C5_counterexample :
    (lifespan_startup { indexJobs := [], reviewJobs := [jrRevProc] } 1).reviewJobs =
      [jrRevProc] ∧ jrRevProc.status = .processing := by
  constructor <;> decide

/-- Claim C5 (amended): on startup, every index-build job whose persisted
status is `processing` is transitioned to `failed` with the
interrupted-by-restart message, and no index-build job remains
`processing`; classification (`ReviewJob`) rows are not touched by the
startup recovery. -/
theorem C5_startup_recovery_index_only (db : DBState) (now : Nat) :
    ((lifespan_startup db now).reviewJobs = db.reviewJobs) ∧
    (∀ j ∈ (lifespan_startup db now).indexJobs, j.status ≠ .processing) ∧
    (∀ j ∈ db.indexJobs, j.status = .processing →
      ({ j with status := .failed, error := some restartMsg, updatedAt := now } : JobRec) ∈
        (lifespan_startup db now).indexJobs) := by
  refine ⟨rfl, ?_, ?_⟩
  · intro j hj
    simp only [lifespan_startup, List.mem_map] at hj
    obtain ⟨a, _, rfl⟩ := hj
    by_cases h : a.status = JStatus.processing
    · rw [if_pos h]
      intro hc
      exact JStatus.noConfusion hc
    · rw [if_neg h]
      exact h
  · intro j hj hproc
    simp only [lifespan_startup, List.mem_map]
    exact ⟨j, hj, by rw [if_pos hproc]⟩

/-- Claim C5, witness: a database with one `processing` index job and one
`processing` review job; the index job is failed with the restart message
and the review job is untouched. -/
theorem C5_startup_recovery_index_only_witness :
    (lifespan_startup { indexJobs := [jrIdxProc], reviewJobs := [jrRevProc] } 9).reviewJobs =
      [jrRevProc] ∧
    ({ jrIdxProc with status := .failed, error := some restartMsg, updatedAt := 9 } : JobRec) ∈
      (lifespan_startup { indexJobs := [jrIdxProc], reviewJobs := [jrRevProc] } 9).indexJobs := by
  have h := C5_startup_recovery_index_only
    { indexJobs := [jrIdxProc], reviewJobs := [jrRevProc] } 9
  exact ⟨h.1, h.2.2 jrIdxProc (by decide) (by decide)⟩

/-! ## Claim C8: the rate-limit-aware call wrapper -/

/-- Claim C8: after a categorizer call returns, the wrapper reads the
quota-remaining header and sleeps for the reset-time duration exactly when
the remaining token quota is below the 4000-token safety threshold; on
every returning call it appends the call duration and accumulates the
call count and the prompt/completion/total token counters. -/
theorem C8_rate_limit_wrapper (st : LLMStats) (h : ApiHeaders) (u : ApiUsage) :
    ((_call_api_with_retry_post st h u).2 = some h.resetTokensSeconds ↔
      h.remainingTokens < 4000) ∧
    ((_call_api_with_retry_post st h u).2 = none ↔ 4000 ≤ h.remainingTokens) ∧
    (_call_api_with_retry_post st h u).1.api_calls = st.api_calls + 1 ∧
    (_call_api_with_retry_post st h u).1.total_prompt_tokens =
      st.total_prompt_tokens + u.promptTokens ∧
    (_call_api_with_retry_post st h u).1.total_completion_tokens =
      st.total_completion_tokens + u.completionTokens ∧
    (_call_api_with_retry_post st h u).1.total_tokens =
      st.total_tokens + u.totalTokens ∧
    (_call_api_with_retry_post st h u).1.api_call_durations =
      st.api_call_durations ++ [h.processingMs] := by
  unfold _call_api_with_retry_post
  by_cases hr : h.remainingTokens < 4000 <;> simp [hr] <;> omega

/-! ## Claim C4: the one-active-job-per-owner invariant -/

/-- An operation sequence of the job subsystem: owner 7 creates a job,
cancels it while it is still pending, creates a second job (the guard sees
no active job), and then the first job's background task - which checks
neither the row's status nor the registry - sets the first job back to
`processing` (utils/routers/jobs.py lines 45-47). -/
def c4ops : List JobOp :=
  [.create 7 0,
   .setStatus 0 .cancelled none (some cancelMsg) 1,
   .create 7 2,
   .setStatus 0 .processing none none 3]

/-- Claim C4, counterexample.  The claim says at every reachable state each
owner has at most one job in `pending`/`processing`.  After `c4ops` - every
step of which is an operation the backend performs - owner 7 has two active
jobs: the resurrected job 0 (`processing`) and job 1 (`pending`). -/
theorem C4_counterexample :
    ¬ (∀ s : JobsState, ReachableJobs s → ∀ u : Nat, activeCount s u ≤ 1) := by
  intro hclaim
  have h := hclaim (runJobOps c4ops) ⟨c4ops, rfl⟩ 7
  have h2 : activeCount (runJobOps c4ops) 7 = 2 := by decide
  omega

/-- Claim C4 (amended): a creation attempt made while an active job exists
for that owner is rejected - the state is unchanged, no row is inserted -
and a creation attempt never breaks the at-most-one-active-job bound for
any owner.  (The bound itself is not an invariant of every reachable
state, because the unguarded `update_review_job_status` can move a
terminal job back to `processing`.) -/
theorem C4_create_guard (s : JobsState) (u now : Nat) :
    ((get_active_review_job s.jobs u).isSome = true →
      jobStep s (.create u now) = s) ∧
    (∀ v : Nat, activeCount s v ≤ 1 →
      activeCount (jobStep s (.create u now)) v ≤ 1) := by
  constructor
  · intro hact
    cases hg : get_active_review_job s.jobs u with
    | some j => simp [jobStep, hg]
    | none => rw [hg] at hact; simp at hact
  · intro v hv
    cases hg : get_active_review_job s.jobs u with
    | some j => simpa [jobStep, hg, activeCount] using hv
    | none =>
      have hnone : ∀ x ∈ s.jobs, ¬ isActiveFor u x = true :=
        List.find?_eq_none.mp hg
      simp only [jobStep, hg, activeCount, List.filter_append, List.length_append]
      by_cases hp : isActiveFor v
          { id := s.nextId, userId := u, status := .pending,
            progress := 0, error := none, updatedAt := now } = true
      · have huv : u = v := by
          simpa [isActiveFor, JStatus.isActive] using hp
        have hzero : (s.jobs.filter (isActiveFor v)).length = 0 := by
          rw [List.length_eq_zero, List.filter_eq_nil_iff]
          intro a ha
          rw [← huv]
          exact hnone a ha
        simp [hp, hzero]
      · simp [hp]
        exact hv

/-- A state with one pending job of owner 7, for the C4 witness. -/
def c4state : JobsState :=
  { nextId := 1,
    jobs := [{ id := 0, userId := 7, status := .pending, progress := 0,
               error := none, updatedAt := 0 }] }

/-- Claim C4, witness: a state with one pending job of owner 7; a second
creation attempt by owner 7 is rejected and the active-job bound holds
afterwards. -/
theorem C4_create_guard_witness :
    jobStep c4state (.create 7 5) = c4state ∧
    activeCount (jobStep c4state (.create 7 5)) 7 ≤ 1 := by
  have h := C4_create_guard c4state 7 5
  exact ⟨h.1 (by decide), h.2 7 (by decide)⟩

/-! ## Claim C2: replace-mode rollback -/

/-- A disk with a prior index: the final pair holds bytes 1 and 2, nothing
else exists. -/
def diskPrior : Disk :=
  { finalIndex := some 1, finalCache := some 2, tempIndex := none,
    tempCache := none, snapshotPair := none }

/-- Claim C2, counterexample.  The claim says a snapshot is taken before
any mutation begins and that a failure at any point leaves the on-disk
pair byte-identical.  The replace branch performs no snapshot step, and a
run that fails after the two `os.remove` calls but before the copies
complete (4 completed steps) leaves both final files absent - not
byte-identical to the prior pair `(some 1, some 2)`. -/
theorem C2_counterexample :
    FsOp.snapshot ∉ replaceSteps 10 11 ∧
    finalPair (runReplace diskPrior 10 11 4) ≠ finalPair diskPrior := by
  constructor <;> decide

/-- Claim C2 (amended): the replace branch protects the prior pair by
scratch-build alone - no snapshot operation occurs in it - and any failure
or cancellation up to and including the database commit (before the
`os.remove`/`shutil.copy2` swap window begins) leaves the on-disk pair
byte-identical to the pre-operation pair.  A failure inside the swap
window can lose the prior pair, as the counterexample shows. -/
theorem C2_replace_scratch_no_snapshot (d : Disk) (newIdx newCache k : Nat)
    (hk : k ≤ 2) :
    FsOp.snapshot ∉ replaceSteps newIdx newCache ∧
    finalPair (runReplace d newIdx newCache k) = finalPair d := by
  constructor
  · simp [replaceSteps]
  · interval_cases k <;> rfl

/-- Claim C2, witness: a failure right after the scratch build and the
database commit (2 completed steps) leaves the prior pair intact. -/
theorem C2_replace_scratch_no_snapshot_witness :
    FsOp.snapshot ∉ replaceSteps 5 6 ∧
    finalPair (runReplace diskPrior 5 6 2) = finalPair diskPrior :=
  C2_replace_scratch_no_snapshot diskPrior 5 6 2 (by decide)

/-! ## Claim C7: cancelling a pending job -/

/-- A review-job table holding one `pending` job of owner 7, with no
running handle registered. -/
def c7db : List JobRec :=
  [{ id := 0, userId := 7, status := .pending, progress := 0,
     error := none, updatedAt := 0 }]

/-- Claim C7, counterexample.  The claim says that after cancelling a
pending job with no running handle, no classification logic for that job
runs and the job never reaches `processing`.  Cancellation does mark the
row `cancelled` directly, but the background task created at submission
time checks neither the row's status nor any cancel flag: when it runs it
sets the row to `processing`, executes the classification stage, and
finishes by marking the job `completed`. -/
theorem C7_counterexample :
    (cancel_review_job c7db [] 0 1).ok = true ∧
    findJob (cancel_review_job c7db [] 0 1).db 0 =
      some { id := 0, userId := 7, status := .cancelled, progress := 0,
             error := some cancelMsg, updatedAt := 1 } ∧
    (process_review_job 0 5 (0 : Nat) (cancel_review_job c7db [] 0 1).db [] 2).classified
      = true ∧
    JStatus.processing ∈
      (process_review_job 0 5 (0 : Nat) (cancel_review_job c7db [] 0 1).db [] 2).statusTrace ∧
    findJob (process_review_job 0 5 (0 : Nat) (cancel_review_job c7db [] 0 1).db [] 2).db 0 =
      some { id := 0, userId := 7, status := .completed, progress := 0,
             error := some cancelMsg, updatedAt := 2 } := by
  refine ⟨?_, ?_, ?_, ?_, ?_⟩ <;> decide

/-- Claim C7 (amended): requesting cancellation of a `pending` job with no
running handle does transition the row directly to `cancelled`; but the
background task scheduled at creation is not gated on that state: whenever
it runs, its first write sets the row to `processing` and it executes the
classification stage regardless. -/
theorem C7_cancel_pending_then_task_runs
    (db : List JobRec) (reg : Registry) (jobId now : Nat) (j : JobRec)
    {α : Type} (total : Nat) (p : α) (db2 : List JobRec) (reg2 : Registry) (n2 : Nat)
    (hfind : findJob db jobId = some j) (hpend : j.status = .pending)
    (hreg : regLookup reg jobId = none) :
    (cancel_review_job db reg jobId now).ok = true ∧
    (cancel_review_job db reg jobId now).db =
      update_review_job_status db jobId .cancelled none (some cancelMsg) now ∧
    findJob (cancel_review_job db reg jobId now).db jobId =
      some { j with status := .cancelled, error := some cancelMsg, updatedAt := now } ∧
    (process_review_job jobId total p db2 reg2 n2).classified = true ∧
    (process_review_job jobId total p db2 reg2 n2).statusTrace.head? =
      some JStatus.processing := by
  have hact : j.status.isActive = true := by rw [hpend]; rfl
  have hlk : (regLookup reg jobId).isSome = false := by rw [hreg]; rfl
  refine ⟨?_, ?_, ?_, rfl, rfl⟩
  · simp [cancel_review_job, hfind, hact, hlk]
  · simp [cancel_review_job, hfind, hact, hlk]
  · simp only [cancel_review_job, hfind, hact, hlk]
    simp [findJob_update_review_job_status, hfind]

/-- Claim C7, witness: the amended theorem at the concrete pending job. -/
theorem C7_cancel_pending_then_task_runs_witness :
    (cancel_review_job c7db [] 0 1).ok = true ∧
    (cancel_review_job c7db [] 0 1).db =
      update_review_job_status c7db 0 .cancelled none (some cancelMsg) 1 ∧
    findJob (cancel_review_job c7db [] 0 1).db 0 =
      some { id := 0, userId := 7, status := .cancelled, progress := 0,
             error := some cancelMsg, updatedAt := 1 } ∧
    (process_review_job 0 5 (0 : Nat) c7db [] 2).classified = true ∧
    (process_review_job 0 5 (0 : Nat) c7db [] 2).statusTrace.head? =
      some JStatus.processing := by
  have h := C7_cancel_pending_then_task_runs c7db [] 0 1
    { id := 0, userId := 7, status := .pending, progress := 0,
      error := none, updatedAt := 0 }
    5 (0 : Nat) c7db [] 2 (by decide) (by decide) (by decide)
  exact h

/-! ## Claim C10: the cancel flag is dead for classification jobs -/

/-- Unfolding `regLookup` on a cons cell. -/
lemma regLookup_cons (a : Nat) (e : RunningEntry) (tl : Registry) (k : Nat) :
    regLookup ((a, e) :: tl) k = if a = k then some e else regLookup tl k := rfl

/-- Unfolding `regSetCancel` on a cons cell. -/
lemma regSetCancel_cons (a : Nat) (e : RunningEntry) (tl : Registry) (k : Nat) (b : Bool) :
    regSetCancel ((a, e) :: tl) k b =
      (if a = k then (a, { e with cancelRequested := b }) else (a, e)) ::
        regSetCancel tl k b := rfl

/-- Looking a key up after writing that key's cancel flag sees the flag. -/
lemma regLookup_regSetCancel (reg : Registry) (k : Nat) (b : Bool) :
    regLookup (regSetCancel reg k b) k =
      (regLookup reg k).map (fun e => { e with cancelRequested := b }) := by
  induction reg with
  | nil => rfl
  | cons p tl ih =>
    obtain ⟨a, e⟩ := p
    by_cases h : a = k
    · rw [regSetCancel_cons, if_pos h, regLookup_cons, regLookup_cons,
        if_pos h, if_pos h]
      rfl
    · rw [regSetCancel_cons, if_neg h, regLookup_cons, regLookup_cons,
        if_neg h, if_neg h, ih]

/-- Writing the cancel flag of an absent key changes nothing. -/
lemma regSetCancel_of_regLookup_none (reg : Registry) (k : Nat) (b : Bool)
    (h : regLookup reg k = none) : regSetCancel reg k b = reg := by
  induction reg with
  | nil => rfl
  | cons p tl ih =>
    obtain ⟨a, e⟩ := p
    rw [regLookup_cons] at h
    by_cases hk : a = k
    · rw [if_pos hk] at h
      exact absurd h (by simp)
    · rw [if_neg hk] at h
      rw [regSetCancel_cons, if_neg hk, ih h]

/-- Overwriting the entry of key `k` erases a previous cancel-flag write
to `k`. -/
lemma map_set_regSetCancel (reg : Registry) (k : Nat) (b : Bool) (e : RunningEntry) :
    (regSetCancel reg k b).map (fun p => if p.1 = k then (p.1, e) else p) =
      reg.map (fun p => if p.1 = k then (p.1, e) else p) := by
  induction reg with
  | nil => rfl
  | cons p tl ih =>
    obtain ⟨a, c⟩ := p
    by_cases h : a = k
    · rw [regSetCancel_cons, if_pos h, List.map_cons, List.map_cons, ih]
      congr 1
      show (if a = k then (a, e) else _) = (if a = k then (a, e) else _)
      rw [if_pos h, if_pos h]
    · rw [regSetCancel_cons, if_neg h, List.map_cons, List.map_cons, ih]

/-- Installing the task's registry entry erases any prior cancel-flag
write for the same job id. -/
lemma regSet_regSetCancel (reg : Registry) (k : Nat) (b : Bool) (e : RunningEntry) :
    regSet (regSetCancel reg k b) k e = regSet reg k e := by
  unfold regSet
  rw [regLookup_regSetCancel]
  cases hl : regLookup reg k with
  | some v =>
    simp only [hl, Option.map_some', Option.isSome_some, if_pos]
    exact map_set_regSetCancel reg k b e
  | none =>
    simp only [hl, Option.map_none', Option.isSome_none]
    rw [regSetCancel_of_regLookup_none reg k b hl]

/-- Claim C10: the in-memory cancel flag of a classification job is dead.
Two runs of the background task whose initial registries differ only in
that job's `cancel_requested` flag are equal in every observable - the
database rows written, the classification output, and the final registry
(the task unconditionally overwrites its entry with a fresh
`cancel_requested := false` one and pops it at the end).  Requesting
cancellation of a `processing` job that has a handle does set the flag
(and marks the row `cancelled`, then pops the entry), but no reader of
the flag exists. -/
theorem C10_cancel_flag_dead {α : Type} (jobId total : Nat) (p : α)
    (db : List JobRec) (reg : Registry) (b : Bool) (now : Nat) :
    (process_review_job jobId total p db (regSetCancel reg jobId b) now =
      process_review_job jobId total p db reg now) ∧
    (∀ j : JobRec, findJob db jobId = some j → j.status.isActive = true →
      (regLookup reg jobId).isSome = true →
      (cancel_review_job db reg jobId now).regMid = regSetCancel reg jobId true ∧
      (cancel_review_job db reg jobId now).reg =
        regPop (regSetCancel reg jobId true) jobId ∧
      findJob (cancel_review_job db reg jobId now).db jobId =
        some { j with
               status := .cancelled
               error := some cancelMsg
               updatedAt := now }) := by
  constructor
  · unfold process_review_job
    rw [regSet_regSetCancel]
  · intro j hfind hact hlk
    refine ⟨?_, ?_, ?_⟩
    · simp [cancel_review_job, hfind, hact, hlk]
    · simp [cancel_review_job, hfind, hact, hlk]
    · simp only [cancel_review_job, hfind, hact, hlk]
      simp [findJob_update_review_job_status, hfind]

/-- A registry with a running entry for job 0, for the C10 witness. -/
def c10reg : Registry :=
  [(0, { status := .processing, progress := 30, cancelRequested := false,
         totalReviews := 5, reviewsProcessed := 0 })]

/-- A review-job table with job 0 `processing`, for the C10 witness. -/
def c10db : List JobRec :=
  [{ id := 0, userId := 7, status := .processing, progress := 30,
     error := none, updatedAt := 0 }]

/-- Claim C10, witness: flag noninterference and the cancellation effects
at a concrete processing job with a registered handle. -/
theorem C10_cancel_flag_dead_witness :
    (process_review_job 0 5 (0 : Nat) c10db (regSetCancel c10reg 0 true) 2 =
      process_review_job 0 5 (0 : Nat) c10db c10reg 2) ∧
    (cancel_review_job c10db c10reg 0 2).regMid = regSetCancel c10reg 0 true ∧
    (cancel_review_job c10db c10reg 0 2).reg =
      regPop (regSetCancel c10reg 0 true) 0 ∧
    findJob (cancel_review_job c10db c10reg 0 2).db 0 =
      some { id := 0, userId := 7, status := .cancelled, progress := 30,
             error := some cancelMsg, updatedAt := 2 } := by
  have h := C10_cancel_flag_dead 0 5 (0 : Nat) c10db c10reg true 2
  have h2 := h.2 { id := 0, userId := 7, status := .processing, progress := 30,
                   error := none, updatedAt := 0 } (by decide) (by decide) (by decide)
  exact ⟨h.1, h2.1, h2.2.1, h2.2.2⟩

/-! ## Claim C9: `classify_reviews_batch` absorbs categorizer failures -/

/-- When retrieval returns, `process_single_batch` returns normally: the
categorizer call sits inside its own try/except, so no exception escapes. -/
lemma psb_ok_of_retr_ok (batch : List Review) (sims : List (List String))
    (cs : Except Unit (List ClassEntry)) :
    ∃ r, process_single_batch batch { retr := .ok sims, cls := cs } = .ok r := by
  unfold process_single_batch
  by_cases h : (nonEmptyIdx batch).isEmpty = true <;> simp [h]

/-- Claim C9: `classify_reviews_batch` never propagates an exception.
When the API call fails even after the retry decorator's attempts, or the
body is not valid JSON, it returns `_default_response`: exactly one entry
per input review, each categorized `["N/A"]`.  Consequently, whenever the
retrieval call returns, `process_batch_wrapper` takes its success path:
the batch is never re-queued because of a categorizer failure. -/
theorem C9_classify_never_raises (reviews : List String) (api : ApiOutcome)
    (behavior : List Review → Nat → Attempt) (batch : List Review)
    (maxA al : Nat) (t : StatusTracker) (q : RetryQueue)
    (sims : List (List String)) (cs : Except Unit (List ClassEntry))
    (hapi : api = .error () ∨ api = .ok none)
    (hatt : behavior batch (maxA - al) = { retr := .ok sims, cls := cs }) :
    classify_reviews_batch reviews api = _default_response reviews.length ∧
    (classify_reviews_batch reviews api).results.length = reviews.length ∧
    (∀ e ∈ (classify_reviews_batch reviews api).results, e.categories = ["N/A"]) ∧
    (process_batch_wrapper behavior batch maxA al t q).queue = q ∧
    (process_batch_wrapper behavior batch maxA al t q).result.isSome = true := by
  obtain ⟨r, hr⟩ := psb_ok_of_retr_ok batch sims cs
  have h1 : classify_reviews_batch reviews api = _default_response reviews.length := by
    rcases hapi with h | h <;> rw [h] <;> rfl
  refine ⟨h1, ?_, ?_, ?_, ?_⟩
  · rw [h1]
    simp [_default_response, defaultEntries]
  · rw [h1]
    intro e he
    simp only [_default_response, defaultEntries, List.mem_map, List.mem_range] at he
    obtain ⟨i, _, rfl⟩ := he
    rfl
  · rw [← hatt] at hr
    simp [process_batch_wrapper, hr]
  · rw [← hatt] at hr
    simp [process_batch_wrapper, hr]

/-- Claim C9, witness: a failing API call on two reviews yields two
`["N/A"]` entries, and a batch whose categorizer fails is not re-queued. -/
theorem C9_classify_never_raises_witness :
    classify_reviews_batch ["r1", "r2"] (.error ()) = _default_response 2 ∧
    (classify_reviews_batch ["r1", "r2"] (.error ())).results.length = 2 ∧
    (∀ e ∈ (classify_reviews_batch ["r1", "r2"] (.error ())).results,
      e.categories = ["N/A"]) ∧
    (process_batch_wrapper (fun _ _ => { retr := .ok [["s"]], cls := .error () })
      [{ id := some 1, text := "a" }] 3 3 {} []).queue = [] ∧
    (process_batch_wrapper (fun _ _ => { retr := .ok [["s"]], cls := .error () })
      [{ id := some 1, text := "a" }] 3 3 {} []).result.isSome = true := by
  have h := C9_classify_never_raises ["r1", "r2"] (.error ())
    (fun _ _ => { retr := .ok [["s"]], cls := .error () })
    [{ id := some 1, text := "a" }] 3 3 {} [] [["s"]] (.error ())
    (Or.inl rfl) rfl
  exact h

/-! ## Claim C3: what triggers the retry queue -/

/-- A batch of one non-empty review, for the C3 scenarios. -/
def c3batch : List Review := [{ id := some 1, text := "a" }]

/-- A behavior whose categorizer call raises on every attempt while
retrieval succeeds. -/
def c3behavior : List Review → Nat → Attempt :=
  fun _ _ => { retr := .ok [["s"]], cls := .error () }

/-- Claim C3, counterexample.  The claim says a categorizer failure with
attempts remaining causes the batch to be re-queued with a backoff.  With
the categorizer failing and all 3 attempts remaining, the wrapper does
not re-queue and does not sleep: the failure is absorbed inside
`process_single_batch`, every non-empty item resolves to `["N/A"]` at
once, and the batch is counted as succeeded. -/
theorem C3_counterexample :
    (process_batch_wrapper c3behavior c3batch 3 3 {} []).queue = [] ∧
    (process_batch_wrapper c3behavior c3batch 3 3 {} []).slept = none ∧
    (process_batch_wrapper c3behavior c3batch 3 3 {} []).result =
      some [some { id := some 1, new_review := "a", similar_reviews := ["s"],
                   categories := ["N/A"] }] ∧
    (process_batch_wrapper c3behavior c3batch 3 3 {} []).tracker.num_batches_succeeded
      = 1 := by
  refine ⟨?_, ?_, ?_, ?_⟩ <;> decide

/-- When retrieval raises and the batch has non-empty items, the exception
escapes `process_single_batch`. -/
lemma psb_error_of_retr_error (batch : List Review) (att : Attempt)
    (hr : att.retr = .error ()) (hne : (nonEmptyIdx batch).isEmpty = false) :
    process_single_batch batch att = .error () := by
  unfold process_single_batch
  simp [hne, hr]

/-- Claim C3 (amended): the re-queue/backoff machinery of
`process_batch_wrapper` is triggered only by exceptions that escape
`process_single_batch` (such as a retrieval failure), never by a
categorizer failure, which is caught inside the batch and resolves its
non-empty items to `["N/A"]` immediately while the batch counts as
succeeded.  For an escaping failure: with attempts remaining the batch is
re-queued with one fewer attempt after a `2 ^ attempts_used` second
backoff; with attempts exhausted every item of the batch resolves to
`["N/A"]` and nothing is re-queued, so the run continues. -/
theorem C3_requeue_only_on_escaping_failure
    (behavior : List Review → Nat → Attempt) (batch : List Review)
    (maxA al : Nat) (t : StatusTracker) (q : RetryQueue) :
    ((behavior batch (maxA - al)).retr = .error () →
      (nonEmptyIdx batch).isEmpty = false →
      (0 < al →
        (process_batch_wrapper behavior batch maxA al t q).result = none ∧
        (process_batch_wrapper behavior batch maxA al t q).queue =
          q ++ [(batch, al - 1)] ∧
        (process_batch_wrapper behavior batch maxA al t q).slept =
          some (2 ^ (maxA - al))) ∧
      (al = 0 →
        (process_batch_wrapper behavior batch maxA al t q).result =
          some (batch.map (fun r => some (naItem r))) ∧
        (process_batch_wrapper behavior batch maxA al t q).queue = q)) ∧
    (∀ sims : List (List String),
      behavior batch (maxA - al) = { retr := .ok sims, cls := .error () } →
      (process_batch_wrapper behavior batch maxA al t q).queue = q ∧
      (process_batch_wrapper behavior batch maxA al t q).slept = none ∧
      (process_batch_wrapper behavior batch maxA al t q).tracker.num_batches_succeeded
        = t.num_batches_succeeded + 1) := by
  constructor
  · intro hr hne
    have herr := psb_error_of_retr_error batch (behavior batch (maxA - al)) hr hne
    constructor
    · intro hal
      simp [process_batch_wrapper, herr, hal]
    · intro hal
      subst hal
      simp only [Nat.sub_zero] at herr
      simp [process_batch_wrapper, herr]
  · intro sims hatt
    obtain ⟨r, hrok⟩ := psb_ok_of_retr_ok batch sims (.error ())
    rw [← hatt] at hrok
    refine ⟨?_, ?_, ?_⟩ <;> simp [process_batch_wrapper, hrok]

/-- Claim C3, witness: the amended theorem at a concrete batch whose
retrieval fails on the first attempt (re-queue with delay `2 ^ 0`), whose
retrieval fails with no attempts left (`["N/A"]` default), and whose
categorizer fails (no re-queue, counted succeeded). -/
theorem C3_requeue_only_on_escaping_failure_witness :
    ((process_batch_wrapper (fun _ _ => { retr := .error (), cls := .ok [] })
        c3batch 3 3 {} []).result = none ∧
      (process_batch_wrapper (fun _ _ => { retr := .error (), cls := .ok [] })
        c3batch 3 3 {} []).queue = [(c3batch, 2)] ∧
      (process_batch_wrapper (fun _ _ => { retr := .error (), cls := .ok [] })
        c3batch 3 3 {} []).slept = some 1) ∧
    ((process_batch_wrapper (fun _ _ => { retr := .error (), cls := .ok [] })
        c3batch 3 0 {} []).result =
        some (c3batch.map (fun r => some (naItem r))) ∧
      (process_batch_wrapper (fun _ _ => { retr := .error (), cls := .ok [] })
        c3batch 3 0 {} []).queue = []) ∧
    ((process_batch_wrapper c3behavior c3batch 3 3 {} []).queue = [] ∧
      (process_batch_wrapper c3behavior c3batch 3 3 {} []).slept = none ∧
      (process_batch_wrapper c3behavior c3batch 3 3 {} []).tracker.num_batches_succeeded
        = 1) := by
  have h1 := (C3_requeue_only_on_escaping_failure
    (fun _ _ => { retr := .error (), cls := .ok [] }) c3batch 3 3 {} []).1
    rfl (by decide)
  have h2 := (C3_requeue_only_on_escaping_failure
    (fun _ _ => { retr := .error (), cls := .ok [] }) c3batch 3 0 {} []).1
    rfl (by decide)
  have h3 := (C3_requeue_only_on_escaping_failure c3behavior c3batch 3 3 {} []).2
    [["s"]] rfl
  refine ⟨?_, ?_, ?_⟩
  · exact ⟨(h1.1 (by decide)).1, (h1.1 (by decide)).2.1,
      by simpa using (h1.1 (by decide)).2.2⟩
  · exact h2.2 rfl
  · exact ⟨h3.1, h3.2.1, by simpa using h3.2.2⟩

/-! ## Claim C1: output length and ordering of the batch engine -/

/-- The batches partition the input: their concatenation is the input. -/
lemma chunkList_flatten {α : Type} (B : Nat) (hB : 0 < B) (l : List α) :
    (chunkList B l).flatten = l := by
  have key : ∀ n (l : List α), l.length = n → (chunkList B l).flatten = l := by
    intro n
    induction n using Nat.strong_induction_on with
    | _ n ih =>
      intro l hl
      cases l with
      | nil => simp [chunkList_nil]
      | cons x xs =>
        rw [chunkList_cons B hB, List.flatten_cons,
          ih ((x :: xs).drop B).length ?_ ((x :: xs).drop B) rfl,
          List.take_append_drop]
        subst hl
        simp only [List.length_drop, List.length_cons]
        omega
  exact key l.length l rfl

/-- A fold of positional writes does not change the length of the slot
list. -/
lemma length_foldl_set {δ : Type} (g : δ → Nat) (v : δ → Option ResultItem) :
    ∀ (l : List δ) (acc : List (Option ResultItem)),
      (l.foldl (fun a t => a.set (g t) (v t)) acc).length = acc.length := by
  intro l
  induction l with
  | nil => intro acc; rfl
  | cons t ts ih =>
    intro acc
    rw [List.foldl_cons, ih, List.length_set]

/-- A successful `process_single_batch` returns one slot per batch item. -/
lemma psb_length (batch : List Review) (att : Attempt) (r : List (Option ResultItem))
    (h : process_single_batch batch att = .ok r) : r.length = batch.length := by
  unfold process_single_batch at h
  by_cases hne : (nonEmptyIdx batch).isEmpty = true
  · rw [if_pos hne] at h
    simp only [Except.ok.injEq] at h
    subst h
    exact List.length_map _ _
  · rw [if_neg hne] at h
    cases hretr : att.retr with
    | error e => rw [hretr] at h; exact absurd h (by simp)
    | ok sims =>
      rw [hretr] at h
      simp only [Except.ok.injEq] at h
      subst h
      exact (length_foldl_set (fun (t : Nat × (List String × ClassEntry)) => t.1)
        (fun (t : Nat × (List String × ClassEntry)) => some
          { id := (batch.getD t.1 { id := none, text := "" }).id,
            new_review := (batch.getD t.1 { id := none, text := "" }).text,
            similar_reviews := t.2.1,
            categories := t.2.2.categories }) _ _).trans (List.length_map _ _)

/-- One wrapper call either returns a list with one slot per batch item
and leaves the queue alone, or returns `None` and re-queues the batch
with one fewer attempt. -/
lemma wrapper_spec (behavior : List Review → Nat → Attempt) (b : List Review)
    (maxA al : Nat) (t : StatusTracker) (q : RetryQueue) :
    (∃ r, (process_batch_wrapper behavior b maxA al t q).result = some r ∧
      r.length = b.length ∧
      (process_batch_wrapper behavior b maxA al t q).queue = q) ∨
    ((process_batch_wrapper behavior b maxA al t q).result = none ∧ 0 < al ∧
      (process_batch_wrapper behavior b maxA al t q).queue = q ++ [(b, al - 1)]) := by
  unfold process_batch_wrapper
  cases h : process_single_batch b (behavior b (maxA - al)) with
  | ok r => exact Or.inl ⟨r, rfl, psb_length _ _ _ h, rfl⟩
  | error e =>
    by_cases hal : 0 < al
    · right
      simp [hal]
    · left
      refine ⟨b.map (fun r => some (naItem r)), ?_, ?_, ?_⟩
      · simp [hal]
      · exact List.length_map _ _
      · simp [hal]

/-- Total number of result slots across a list of batch results. -/
def flatLen (l : List (List (Option ResultItem))) : Nat :=
  (l.map List.length).sum

/-- Total number of items sitting in the retry queue. -/
def queueLen (q : RetryQueue) : Nat :=
  (q.map (fun p => p.1.length)).sum

lemma flatLen_cons (r : List (Option ResultItem)) (l : List (List (Option ResultItem))) :
    flatLen (r :: l) = r.length + flatLen l := by
  simp [flatLen]

lemma queueLen_append (q : RetryQueue) (b : List Review) (n : Nat) :
    queueLen (q ++ [(b, n)]) = queueLen q + b.length := by
  simp [queueLen]

/-- The gather phase conserves items: slots returned plus items queued
equals items submitted plus items already queued. -/
lemma gather_len (behavior : List Review → Nat → Attempt) (maxA : Nat) :
    ∀ (bs : List (List Review)) (t : StatusTracker) (q : RetryQueue),
      flatLen ((gatherPhase behavior maxA bs t q).results.filterMap id) +
        queueLen (gatherPhase behavior maxA bs t q).queue =
      (bs.map List.length).sum + queueLen q := by
  intro bs
  induction bs with
  | nil => intro t q; simp [gatherPhase, flatLen]
  | cons b rest ih =>
    intro t q
    simp only [gatherPhase]
    rcases wrapper_spec behavior b maxA maxA t q with ⟨r, hres, hlen, hq⟩ |
      ⟨hres, _, hq⟩
    · simp only [hres, hq, List.filterMap_cons, id_eq]
      rw [flatLen_cons]
      have hrec := ih (process_batch_wrapper behavior b maxA maxA t q).tracker q
      simp only [List.map_cons, List.sum_cons]
      omega
    · simp only [hres, hq, List.filterMap_cons, id_eq]
      have hrec := ih (process_batch_wrapper behavior b maxA maxA t q).tracker
        (q ++ [(b, maxA - 1)])
      rw [queueLen_append] at hrec
      simp only [List.map_cons, List.sum_cons]
      omega

/-- The retry loop conserves items: the slots it appends equal the items
in the queue it drains. -/
lemma drain_len (behavior : List Review → Nat → Attempt) (maxA : Nat) :
    ∀ (n : Nat) (q : RetryQueue) (t : StatusTracker), queueMeasure q ≤ n →
      flatLen (drainQueue behavior maxA q t).appended = queueLen q := by
  intro n
  induction n with
  | zero =>
    intro q t h
    cases q with
    | nil => simp [drainQueue_nil, flatLen, queueLen]
    | cons p rest =>
      obtain ⟨b, al⟩ := p
      rw [queueMeasure_cons] at h
      omega
  | succ m ih =>
    intro q t h
    cases q with
    | nil => simp [drainQueue_nil, flatLen, queueLen]
    | cons p rest =>
      obtain ⟨b, al⟩ := p
      rw [queueMeasure_cons] at h
      rw [drainQueue_cons]
      have hqm := wrapper_queue_measure behavior b maxA al t rest
      rcases wrapper_spec behavior b maxA al t rest with ⟨r, hres, hlen, hq⟩ |
        ⟨hres, hal, hq⟩
      · simp only [hres]
        rw [flatLen_cons, ih _ _ (by omega), hq]
        simp only [queueLen, List.map_cons, List.sum_cons]
        omega
      · simp only [hres]
        rw [ih _ _ (by omega), hq, queueLen_append]
        simp only [queueLen, List.map_cons, List.sum_cons]
        omega

/-- Projection of a result slot to the (id, original text) pair it carries. -/
def projIdText (o : Option ResultItem) : Option (Option Nat × String) :=
  o.map (fun it => (it.id, it.new_review))

/-- Membership in the non-empty index list of a batch. -/
lemma mem_nonEmptyIdx (batch : List Review) (j : Nat) :
    j ∈ nonEmptyIdx batch ↔
      ∃ r, batch.get? j = some r ∧ pyNonBlank r.text = true := by
  unfold nonEmptyIdx
  constructor
  · intro h
    obtain ⟨⟨i, r⟩, hmem, hfst⟩ := List.mem_map.mp h
    obtain ⟨henum, hpred⟩ := List.mem_filter.mp hmem
    obtain ⟨n, hn⟩ := List.mem_iff_get?.mp henum
    rw [List.get?_enum] at hn
    cases hg : batch.get? n with
    | none => rw [hg] at hn; exact absurd hn (by simp)
    | some a =>
      rw [hg] at hn
      simp only [Option.map_some', Option.some.injEq, Prod.mk.injEq] at hn
      obtain ⟨rfl, rfl⟩ := hn
      simp only at hfst
      subst hfst
      exact ⟨a, hg, hpred⟩
  · rintro ⟨r, hget, hnb⟩
    apply List.mem_map.mpr
    refine ⟨(j, r), ?_, rfl⟩
    apply List.mem_filter.mpr
    refine ⟨?_, hnb⟩
    rw [List.mem_iff_get?]
    refine ⟨j, ?_⟩
    rw [List.get?_enum, hget]
    rfl

/-- Projected contents of a fold of positional writes whose written value
projects to a function of the position alone: position `j` holds `w j`
when some write targeted it, and its original content otherwise. -/
lemma foldl_set_map_proj {δ : Type} (g : δ → Nat) (v : δ → Option ResultItem)
    (w : Nat → Option (Option Nat × String))
    (hw : ∀ t, projIdText (v t) = w (g t)) :
    ∀ (l : List δ) (acc : List (Option ResultItem)) (j : Nat),
      ((l.foldl (fun a t => a.set (g t) (v t)) acc).map projIdText).get? j =
        if j ∈ l.map g ∧ j < acc.length then some (w j)
        else (acc.map projIdText).get? j := by
  intro l
  induction l with
  | nil =>
    intro acc j
    simp
  | cons t ts ih =>
    intro acc j
    rw [List.foldl_cons, ih (acc.set (g t) (v t)) j, List.length_set]
    by_cases hmem : j ∈ ts.map g
    · have hmem2 : j ∈ (t :: ts).map g := by
        rw [List.map_cons]
        exact List.mem_cons_of_mem _ hmem
      by_cases hlt : j < acc.length
      · rw [if_pos ⟨hmem, hlt⟩, if_pos ⟨hmem2, hlt⟩]
      · rw [if_neg (by tauto), if_neg (by tauto), List.map_set]
        by_cases hgt : g t = j
        · rw [hgt, List.set_eq_of_length_le (by rw [List.length_map]; omega)]
        · rw [List.get?_set_ne _ _ hgt]
    · rw [if_neg (by tauto), List.map_set]
      by_cases hgt : g t = j
      · by_cases hlt : j < acc.length
        · have hmem2 : j ∈ (t :: ts).map g := by
            rw [List.map_cons, hgt]
            exact List.mem_cons_self _ _
          rw [if_pos ⟨hmem2, hlt⟩, hgt, List.get?_set_eq]
          have hy : ∃ y, (acc.map projIdText).get? j = some y := by
            cases hg : (acc.map projIdText).get? j with
            | none =>
              rw [List.get?_eq_none, List.length_map] at hg
              omega
            | some a => exact ⟨a, rfl⟩
          obtain ⟨y, hy⟩ := hy
          rw [hy]
          have := hw t
          rw [hgt] at this
          simp [← this]
        · have hmem2 : ¬ (j ∈ (t :: ts).map g ∧ j < acc.length) := by tauto
          rw [if_neg hmem2, hgt,
            List.set_eq_of_length_le (by rw [List.length_map]; omega)]
      · have hmem2 : ¬ j ∈ (t :: ts).map g := by
          rw [List.map_cons, List.mem_cons]
          rintro (h | h)
          · exact hgt h.symm
          · exact hmem h
        rw [if_neg (by tauto), List.get?_set_ne _ _ hgt]

/-- A successful `process_single_batch` on a first-rate attempt (retrieval
and categorizer both return, with one entry per non-empty item) fills
every slot with its own item's id and text. -/
lemma psb_proj (batch : List Review) (sims : List (List String)) (cs : List ClassEntry)
    (hs : sims.length = (nonEmptyIdx batch).length)
    (hc : cs.length = (nonEmptyIdx batch).length) :
    ∃ r, process_single_batch batch { retr := .ok sims, cls := .ok cs } = .ok r ∧
      r.map projIdText = batch.map (fun rv => some (rv.id, rv.text)) := by
  unfold process_single_batch
  by_cases hne : (nonEmptyIdx batch).isEmpty = true
  · refine ⟨_, by rw [if_pos hne], ?_⟩
    rw [List.map_map]
    apply List.map_congr_left
    intro a ha
    have hblank : pyNonBlank a.text = false := by
      by_contra hnb
      rw [Bool.not_eq_false] at hnb
      obtain ⟨n, hn⟩ := List.mem_iff_get?.mp ha
      have hmem : n ∈ nonEmptyIdx batch := (mem_nonEmptyIdx batch n).mpr ⟨a, hn, hnb⟩
      rw [List.isEmpty_iff.mp hne] at hmem
      exact absurd hmem (List.not_mem_nil n)
    simp [Function.comp, hblank, projIdText, naItem]
  · refine ⟨_, by rw [if_neg hne], ?_⟩
    apply List.ext_get?
    intro j
    rw [foldl_set_map_proj
      (fun (t : Nat × (List String × ClassEntry)) => t.1)
      (fun (t : Nat × (List String × ClassEntry)) => some
        { id := (batch.getD t.1 { id := none, text := "" }).id,
          new_review := (batch.getD t.1 { id := none, text := "" }).text,
          similar_reviews := t.2.1,
          categories := t.2.2.categories })
      (fun i => some ((batch.getD i { id := none, text := "" }).id,
        (batch.getD i { id := none, text := "" }).text))
      (fun t => rfl)]
    have htr : ((nonEmptyIdx batch).zip (sims.zip cs)).map
        (fun (t : Nat × (List String × ClassEntry)) => t.1) = nonEmptyIdx batch := by
      have hlen : (nonEmptyIdx batch).length ≤ (sims.zip cs).length := by
        rw [List.length_zip, hs, hc]
        simp
      exact List.map_fst_zip _ _ hlen
    have hinit : (batch.map (fun r =>
        if pyNonBlank r.text then none else some (naItem r))).length = batch.length :=
      List.length_map _ _
    rw [htr, hinit]
    by_cases hj : j < batch.length
    · have hr : ∃ y, batch.get? j = some y := by
        cases hg : batch.get? j with
        | none => rw [List.get?_eq_none] at hg; omega
        | some a => exact ⟨a, rfl⟩
      obtain ⟨rv, hrv⟩ := hr
      by_cases hnb : pyNonBlank rv.text = true
      · have hidx : j ∈ nonEmptyIdx batch := (mem_nonEmptyIdx _ _).mpr ⟨rv, hrv, hnb⟩
        rw [if_pos ⟨hidx, hj⟩, List.get?_map, hrv]
        have hrv' : batch[j]? = some rv := by
          rw [← List.get?_eq_getElem?]
          exact hrv
        simp [List.getD_eq_get?, List.get?_eq_getElem?, hrv']
      · have hidx : j ∉ nonEmptyIdx batch := by
          rw [mem_nonEmptyIdx]
          rintro ⟨r', hr', hnb'⟩
          rw [hrv] at hr'
          obtain rfl := Option.some.inj hr'
          exact hnb hnb'
        rw [if_neg (by tauto), List.map_map, List.get?_map, List.get?_map, hrv]
        have hnb' : pyNonBlank rv.text = false := by
          rwa [Bool.not_eq_true] at hnb
        simp [Function.comp, hnb', projIdText, naItem]
    · have hidx : j ∉ nonEmptyIdx batch := by
        rw [mem_nonEmptyIdx]
        rintro ⟨r', hr', _⟩
        rw [List.get?_eq_none.mpr (by omega)] at hr'
        exact absurd hr' (by simp)
      rw [if_neg (by tauto)]
      have e1 : ((batch.map (fun r =>
          if pyNonBlank r.text then none else some (naItem r))).map projIdText).get? j
          = none := by
        rw [List.get?_eq_none, List.length_map, hinit]
        omega
      have e2 : (batch.map (fun rv => some (rv.id, rv.text))).get? j = none := by
        rw [List.get?_eq_none, List.length_map]
        omega
      rw [e1, e2]

/-- A first attempt on a batch is good when both calls return and each
returns one entry per non-empty item. -/
def GoodFirst (behavior : List Review → Nat → Attempt) (b : List Review) : Prop :=
  ∃ sims cs, behavior b 0 = { retr := .ok sims, cls := .ok cs } ∧
    sims.length = (nonEmptyIdx b).length ∧ cs.length = (nonEmptyIdx b).length

/-- A wrapper call on a good first attempt returns the per-item results
in place and leaves the queue alone. -/
lemma wrapper_good (behavior : List Review → Nat → Attempt) (b : List Review)
    (maxA : Nat) (t : StatusTracker) (q : RetryQueue) (hg : GoodFirst behavior b) :
    ∃ r, (process_batch_wrapper behavior b maxA maxA t q).result = some r ∧
      (process_batch_wrapper behavior b maxA maxA t q).queue = q ∧
      r.map projIdText = b.map (fun rv => some (rv.id, rv.text)) := by
  obtain ⟨sims, cs, hatt, hs, hc⟩ := hg
  obtain ⟨r, hr, hproj⟩ := psb_proj b sims cs hs hc
  have hsub : maxA - maxA = 0 := Nat.sub_self maxA
  refine ⟨r, ?_, ?_, hproj⟩ <;>
    (unfold process_batch_wrapper; rw [hsub, hatt]; simp only [hr])

/-- When every batch's first attempt is good, the gather phase leaves the
queue empty and yields every batch's results, projected, in batch order. -/
lemma gather_good (behavior : List Review → Nat → Attempt) (maxA : Nat) :
    ∀ (bs : List (List Review)) (t : StatusTracker),
      (∀ b ∈ bs, GoodFirst behavior b) →
      (gatherPhase behavior maxA bs t []).queue = [] ∧
      ((gatherPhase behavior maxA bs t []).results.filterMap id).map
          (List.map projIdText) =
        bs.map (fun b => b.map (fun rv => some (rv.id, rv.text))) := by
  intro bs
  induction bs with
  | nil => intro t _; exact ⟨rfl, rfl⟩
  | cons b rest ih =>
    intro t h
    obtain ⟨r, hres, hq, hproj⟩ := wrapper_good behavior b maxA t []
      (h b (List.mem_cons_self _ _))
    obtain ⟨ihq, ihr⟩ := ih (process_batch_wrapper behavior b maxA maxA t []).tracker
      (fun b' hb' => h b' (List.mem_cons_of_mem _ hb'))
    simp only [gatherPhase, hq]
    refine ⟨ihq, ?_⟩
    simp only [hres, List.filterMap_cons, id_eq, List.map_cons]
    rw [hproj, ihr]

/-- Dropping the `some` wrappers the retry loop's results were given
before joining the gathered results recovers them unchanged. -/
lemma filterMap_id_map_some (l : List (List (Option ResultItem))) :
    (l.map some).filterMap id = l := by
  induction l with
  | nil => rfl
  | cons x xs ih => simp [ih]

/-- Claim C1 (amended): for a positive batch size the classification run
always returns exactly one result slot per input item (length N holds for
every behavior of the collaborators, failures and retries included); and
when no batch fails its first attempt, the i-th slot carries the i-th
input item's id and text, so output order matches input order.  (Under a
retry the guarantee is only the length: a re-queued batch's results are
appended after the gathered results, out of input order, as the
counterexample shows.) -/
theorem C1_length_and_order (reviews : List Review)
    (behavior : List Review → Nat → Attempt) (B maxA : Nat) (hB : 0 < B) :
    (process_reviews_in_batches_async reviews behavior B maxA).results.length =
      reviews.length ∧
    ((∀ b ∈ chunkList B reviews, GoodFirst behavior b) →
      (process_reviews_in_batches_async reviews behavior B maxA).results.map projIdText
        = reviews.map (fun rv => some (rv.id, rv.text))) := by
  constructor
  · have hga := gather_len behavior maxA (chunkList B reviews) {} []
    have hdr := drain_len behavior maxA
      (queueMeasure (gatherPhase behavior maxA (chunkList B reviews) {} []).queue)
      (gatherPhase behavior maxA (chunkList B reviews) {} []).queue
      (gatherPhase behavior maxA (chunkList B reviews) {} []).tracker le_rfl
    have hsum : ((chunkList B reviews).map List.length).sum = reviews.length := by
      rw [← List.length_flatten, chunkList_flatten B hB]
    simp only [process_reviews_in_batches_async]
    rw [List.filterMap_append, filterMap_id_map_some, List.length_flatten,
      List.map_append, List.sum_append]
    simp only [queueLen, List.map_nil, List.sum_nil, flatLen] at hga hdr
    omega
  · intro hgood
    obtain ⟨hq, hr⟩ := gather_good behavior maxA (chunkList B reviews) {} hgood
    simp only [process_reviews_in_batches_async]
    rw [hq, drainQueue_nil]
    simp only [List.map_nil, List.append_nil]
    rw [List.map_flatten, hr, ← List.map_flatten, chunkList_flatten B hB]

/-- Four reviews in order, for the C1 scenarios. -/
def c1reviews : List Review :=
  [{ id := some 1, text := "a" }, { id := some 2, text := "b" },
   { id := some 3, text := "c" }, { id := some 4, text := "d" }]

/-- A behavior whose retrieval raises on the first attempt at the first
batch and is good everywhere else. -/
def c1failBehavior : List Review → Nat → Attempt := fun b n =>
  if b = [{ id := some 1, text := "a" }, { id := some 2, text := "b" }] ∧ n = 0 then
    { retr := .error (), cls := .ok [] }
  else
    { retr := .ok (b.map (fun _ => ["s"])),
      cls := .ok ((List.range b.length).map (fun i => { review := i + 1, categories := ["X"] })) }

/-- Claim C1, counterexample.  With batch size 2 and the first batch
failing once before succeeding on retry, the run returns the second
batch's items first and the first batch's items appended at the end: the
i-th result does not correspond to the i-th input, refuting the claim
that output order matches input order for every schedule of retries. -/
theorem C1_counterexample :
    (process_reviews_in_batches_async c1reviews c1failBehavior 2 3).results.map projIdText
      = [some (some 3, "c"), some (some 4, "d"),
         some (some 1, "a"), some (some 2, "b")] ∧
    (process_reviews_in_batches_async c1reviews c1failBehavior 2 3).results.map projIdText
      ≠ c1reviews.map (fun rv => some (rv.id, rv.text)) := by
  constructor <;> decide

/-- A behavior that succeeds on every attempt with one retrieval list and
one classification entry per item. -/
def c1goodBehavior : List Review → Nat → Attempt := fun b _ =>
  { retr := .ok (b.map (fun _ => ["s"])),
    cls := .ok ((List.range b.length).map (fun i => { review := i + 1, categories := ["X"] })) }

/-- Claim C1, witness: the amended theorem at four reviews in batches of
two with an always-good behavior - four results, in input order. -/
theorem C1_length_and_order_witness :
    (process_reviews_in_batches_async c1reviews c1goodBehavior 2 3).results.length = 4 ∧
    (process_reviews_in_batches_async c1reviews c1goodBehavior 2 3).results.map projIdText
      = c1reviews.map (fun rv => some (rv.id, rv.text)) := by
  have h := C1_length_and_order c1reviews c1goodBehavior 2 3 (by decide)
  refine ⟨h.1, h.2 ?_⟩
  intro b hb
  have hchunk : chunkList 2 c1reviews =
      [[{ id := some 1, text := "a" }, { id := some 2, text := "b" }],
       [{ id := some 3, text := "c" }, { id := some 4, text := "d" }]] := by decide
  rw [hchunk] at hb
  simp only [List.mem_cons, List.not_mem_nil, or_false] at hb
  rcases hb with rfl | rfl
  · exact ⟨[["s"], ["s"]],
      [{ review := 1, categories := ["X"] }, { review := 2, categories := ["X"] }],
      rfl, by decide, by decide⟩
  · exact ⟨[["s"], ["s"]],
      [{ review := 1, categories := ["X"] }, { review := 2, categories := ["X"] }],
      rfl, by decide, by decide⟩
